import Mathlib

/-!
Verification development for the real-time streaming transcription/translation
bridge (`app/services/assistant.py` plus the `websocket_listen` route in
`app/api/routes/media_processing.py`).

The Python code is shallowly embedded: the mutable attributes of the
`Assistant` instance become a Lean structure threaded through pure step
functions; the Deepgram callback handlers (`on_message`, `on_utterance_end`)
become functions from the current state and the incoming provider payload to
the new state, paired with an optional Python-level exception; the
`asyncio.Queue` becomes an explicit FIFO list; the cooperative single-threaded
interleaving of the task group in `Assistant.run` becomes a deterministic step
function over an explicit trace of external events (client frames, provider
payloads, scheduler wake-ups of the queue consumer, timeout expiry).
-/

/-- A message placed on `transcript_queue` / sent with `websocket.send_json`:
a Python dict with keys `type`, `content` and (sometimes absent) `time`. -/
structure QueueMsg where
  type : String
  content : String
  time : Option Rat
deriving DecidableEq, Repr

/-- A word in a Deepgram transcript alternative; only its start time is read
by the code (`words[0].start`). -/
structure Word where
  start : Rat
deriving DecidableEq, Repr

/-- One entry of `result.channel.alternatives` (named `DGAlternative` because `Alternative` is taken by the Lean prelude). -/
structure DGAlternative where
  transcript : String
  words : List Word
deriving DecidableEq, Repr

/-- The `result.channel` object of a Deepgram transcript event. -/
structure DGChannel where
  alternatives : List DGAlternative
deriving DecidableEq, Repr

/-- A Deepgram transcript event as consumed by `on_message`. -/
structure DGResult where
  channel : DGChannel
  is_final : Bool
deriving DecidableEq, Repr

/-- Python-level exceptions that the embedded handlers can raise. -/
inductive PyError where
  | indexError
  | attributeError
deriving DecidableEq, Repr

/-- The mutable attributes of an `Assistant` instance that the embedded code
reads or writes.  `mode` is `Option String` because Python instance
attributes may be absent: `none` models "no such attribute", so reading it
raises `AttributeError`. -/
structure AssistantState where
  transcript_parts : List String
  transcript_queue : List QueueMsg
  finish_event : Bool
  mode : Option String
  stime : Rat
  source_language : String
  target_language : String
deriving DecidableEq, Repr

/-- `Assistant.__init__(websocket, dg_api_key, openai_api_key,
target_language='en', mode='speed')`.  The body stores the fields below; it
never assigns `self.mode` (the `mode` parameter is unused), and it assigns
`self.target_language = 'en'` ignoring the `target_language` parameter. -/
def Assistant.init (target_language : String) (mode : String) : AssistantState :=
  { transcript_parts := []
    transcript_queue := []
    finish_event := false
    mode := none
    stime := 0
    source_language := "hi"
    target_language := "en" }

/-- The `on_message` Deepgram handler (lines 133-161 of `assistant.py`):
reads `result.channel.alternatives[0].transcript`; returns early on empty
text; on a final fragment appends the sentence to `transcript_parts`, sets
`stime` from `words[0].start` when still zero, and enqueues a
`transcript_final` message timed by `words[0].start`; otherwise enqueues a
`transcript_interim` message with time 0.  The second component is the
exception raised, if any (indexing an empty list raises `IndexError`; the
append to `transcript_parts` has already happened by then). -/
def on_message (st : AssistantState) (result : DGResult) :
    AssistantState × Option PyError :=
  match result.channel.alternatives.head? with
  | none => (st, some PyError.indexError)
  | some alt =>
    let sentence := alt.transcript
    if sentence.length = 0 then (st, none)
    else if result.is_final then
      let st1 := { st with transcript_parts := st.transcript_parts ++ [sentence] }
      match alt.words.head? with
      | none => (st1, some PyError.indexError)
      | some w =>
        let st2 := if st1.stime = 0 then { st1 with stime := w.start } else st1
        ({ st2 with transcript_queue := st2.transcript_queue ++
            [{ type := "transcript_final", content := sentence, time := some w.start }] },
         none)
    else
      ({ st with transcript_queue := st.transcript_queue ++
          [{ type := "transcript_interim", content := sentence, time := some 0 }] },
       none)

/-- The `on_utterance_end` Deepgram handler (lines 169-174): evaluates
`self.mode != 'speed' and len(self.transcript_parts) > 0`.  Reading
`self.mode` on an instance without that attribute raises `AttributeError`
before anything else happens.  When the attribute exists and the condition
holds, the accumulated parts are joined with spaces, the accumulator is
cleared and a `transcript_final` message without a `time` key is enqueued;
`stime` is not touched. -/
def on_utterance_end (st : AssistantState) : AssistantState × Option PyError :=
  match st.mode with
  | none => (st, some PyError.attributeError)
  | some m =>
    if m ≠ "speed" ∧ st.transcript_parts.length > 0 then
      ({ st with
          transcript_parts := []
          transcript_queue := st.transcript_queue ++
            [{ type := "transcript_final"
               content := String.intercalate " " st.transcript_parts
               time := none }] },
       none)
    else (st, none)

/-- Observable actions of `manage_conversation` (lines 210-220): a successful
`websocket.send_json(transcript)` relay, a relay attempt whose send raised and
was caught by the `except` clause, and a call to `send_message_to_openai`. -/
inductive ConvAction where
  | relay (m : QueueMsg)
  | relayError (m : QueueMsg)
  | translate (text : String)
deriving DecidableEq, Repr

/-- One iteration body of the `manage_conversation` loop for a dequeued
message: relay it; on success, when its `type` is `transcript_final`, hand its
`content` to `send_message_to_openai`; on a send failure the exception is
caught (`except Exception`) and the iteration produces nothing else. -/
def manage_step (sendOk : QueueMsg → Bool) (m : QueueMsg) : List ConvAction :=
  if sendOk m then
    ConvAction.relay m :: (if m.type = "transcript_final" then [ConvAction.translate m.content] else [])
  else [ConvAction.relayError m]

/-- The `manage_conversation` loop over the sequence of messages it dequeues
(`finish_event` is never set, so the `while` guard never stops it; each
iteration's exception is caught and the loop moves to the next message). -/
def manage_run (sendOk : QueueMsg → Bool) : List QueueMsg → List ConvAction
  | [] => []
  | m :: rest => manage_step sendOk m ++ manage_run sendOk rest

/-- The successfully relayed messages of an action trace, in order. -/
def relaysOf : List ConvAction → List QueueMsg
  | [] => []
  | ConvAction.relay m :: rest => m :: relaysOf rest
  | ConvAction.relayError _ :: rest => relaysOf rest
  | ConvAction.translate _ :: rest => relaysOf rest

/-- Operations on the `asyncio.Queue` handed between `on_message` /
`on_utterance_end` (producer) and `manage_conversation` (consumer). -/
inductive QOp where
  | push (m : QueueMsg)
  | pop
deriving DecidableEq, Repr

/-- The queue's buffer plus the sequence of messages the consumer has
observed, in observation order. -/
structure QueueState where
  buf : List QueueMsg
  popped : List QueueMsg
deriving DecidableEq, Repr

/-- `asyncio.Queue` semantics: `put` appends at the tail; `get` takes the
head (a `get` on an empty queue suspends, i.e. changes nothing until a later
push; the suspended wake-up is modelled by a later `pop`). -/
def qStep (s : QueueState) : QOp → QueueState
  | QOp.push m => { s with buf := s.buf ++ [m] }
  | QOp.pop =>
    match s.buf with
    | [] => s
    | m :: rest => { buf := rest, popped := s.popped ++ [m] }

/-- Run a sequence of interleaved queue operations from the empty queue. -/
def qRun (ops : List QOp) : QueueState :=
  ops.foldl qStep { buf := [], popped := [] }

/-- The pushed messages of an operation sequence, in push order. -/
def pushesOf : List QOp → List QueueMsg
  | [] => []
  | QOp.push m :: rest => m :: pushesOf rest
  | QOp.pop :: rest => pushesOf rest

/-- Messages from the OpenAI realtime connection as classified by
`process_openai_responses` (lines 76-100): `response.text.delta` payloads,
`response.text.done`, and anything else (ignored). -/
inductive OpenAIMsg where
  | textDelta (delta : String)
  | textDone
  | other
deriving DecidableEq, Repr

/-- JSON messages the session sends to the client over the websocket. -/
inductive ClientMsg where
  | transcript (m : QueueMsg)
  | assistant (content : String)
  | assistantDone
deriving DecidableEq, Repr

/-- Rendering of one OpenAI message by `process_openai_responses`:
`response.text.delta` becomes `{'type': 'assistant', 'content': delta}`,
`response.text.done` becomes `{'type': 'assistant_done', 'content':
'Completed'}`, anything else sends nothing. -/
def renderOpenAI : OpenAIMsg → Option ClientMsg
  | OpenAIMsg.textDelta d => some (ClientMsg.assistant d)
  | OpenAIMsg.textDone => some ClientMsg.assistantDone
  | OpenAIMsg.other => none

/-- Session phase: `streaming` while the task group is alive, `ended` once a
fatal task failure or cancellation has torn the group down. -/
inductive Phase where
  | streaming
  | ended
deriving DecidableEq, Repr

/-- External events driving one session, in the order the single-threaded
event loop observes them: an audio frame from the client, a client
disconnect (`receive_bytes` raises `WebSocketDisconnect`), a Deepgram
transcript or utterance-end callback, a scheduler wake-up of the
`manage_conversation` consumer that processes one queued message, a message
or `ConnectionClosed` from the OpenAI websocket, and expiry of the
`asyncio.wait_for` ceiling in `websocket_listen`. -/
inductive ExtEvent where
  | clientAudio
  | clientDisconnect
  | dgTranscript (r : DGResult)
  | dgUtteranceEnd
  | consumeOne
  | openaiMsg (m : OpenAIMsg)
  | openaiClosed
  | timeoutExpiry
deriving Repr

/-- The whole session's state: the `Assistant` attributes plus the status of
the three peer connections, everything sent to the client and to OpenAI, and
counters of close/finish calls (to check teardown happens at most once per
connection). -/
structure SessionState where
  assistant : AssistantState
  phase : Phase
  openaiConnected : Bool
  dgStarted : Bool
  clientConnected : Bool
  clientMsgs : List ClientMsg
  openaiRequests : List String
  dgAudioCount : Nat
  dgFinishCount : Nat
  openaiCloseCount : Nat
  clientCloseCount : Nat
  closeCode : Option Nat
deriving DecidableEq, Repr

/-- Teardown as the code performs it when the task group unwinds:
`transcribe_audio`'s inner `finally` calls `dg_connection.finish()` (only
reachable when the connection was started), and `run`'s `finally` calls
`websocket.close()` — with the default close code 1000 — unless the client
state is already `DISCONNECTED`.  Nothing ever calls `openai_ws.close()`.
Idempotent: a second ending event changes nothing. -/
def endSession (s : SessionState) : SessionState :=
  if s.phase = Phase.ended then s
  else
    { s with
        phase := Phase.ended
        dgFinishCount := s.dgFinishCount + (if s.dgStarted then 1 else 0)
        clientCloseCount := s.clientCloseCount + (if s.clientConnected then 1 else 0)
        closeCode := if s.clientConnected then some 1000 else s.closeCode
        clientConnected := false }

/-- Session start as performed by `websocket_listen` and `Assistant.run`:
`connect_to_openai` swallows any connection failure (`except ... print`), so
a failed OpenAI connection leaves `openai_ws = None` and `run` proceeds to
start the task group regardless; if `dg_connection.start` fails,
`transcribe_audio` raises before its inner `try`, the group unwinds and
teardown runs with no `dg_connection.finish()` call. -/
def sessionInit (openaiConnectOk : Bool) (dgStartOk : Bool)
    (target_language mode : String) : SessionState :=
  let base : SessionState :=
    { assistant := Assistant.init target_language mode
      phase := Phase.streaming
      openaiConnected := openaiConnectOk
      dgStarted := dgStartOk
      clientConnected := true
      clientMsgs := []
      openaiRequests := []
      dgAudioCount := 0
      dgFinishCount := 0
      openaiCloseCount := 0
      clientCloseCount := 0
      closeCode := none }
  if dgStartOk then base else endSession base

/-- One step of the session under one external event.  After the session has
ended all tasks are cancelled, so events change nothing.  A client
disconnect makes `receive_bytes` raise: the ingest loop's `finally` and the
group unwinding run teardown (the client-close guard sees `DISCONNECTED`).
Deepgram callbacks mutate the `Assistant` state; an exception inside a
callback is swallowed by the SDK's dispatcher and does not end the session.
`consumeOne` is one `manage_conversation` iteration: dequeue, relay, and on
a `transcript_final` do `send_message_to_openai`, which silently drops the
request when `openai_ws` is `None` (its own `except` clause).  An OpenAI
message is relayed per `renderOpenAI`; `ConnectionClosed` on that socket
makes `process_openai_responses` re-raise, ending the whole group.  The
`asyncio.wait_for` ceiling cancels `run`, whose `finally` still performs
teardown. -/
def sessionStep (s : SessionState) (e : ExtEvent) : SessionState :=
  if s.phase = Phase.ended then s
  else
    match e with
    | ExtEvent.clientAudio => { s with dgAudioCount := s.dgAudioCount + 1 }
    | ExtEvent.clientDisconnect => endSession { s with clientConnected := false }
    | ExtEvent.dgTranscript r => { s with assistant := (on_message s.assistant r).1 }
    | ExtEvent.dgUtteranceEnd => { s with assistant := (on_utterance_end s.assistant).1 }
    | ExtEvent.consumeOne =>
      match s.assistant.transcript_queue with
      | [] => s
      | m :: rest =>
        let s1 := { s with assistant := { s.assistant with transcript_queue := rest } }
        if s1.clientConnected then
          let s2 := { s1 with clientMsgs := s1.clientMsgs ++ [ClientMsg.transcript m] }
          if m.type = "transcript_final" ∧ s2.openaiConnected = true then
            { s2 with openaiRequests := s2.openaiRequests ++ [m.content] }
          else s2
        else s1
    | ExtEvent.openaiMsg m =>
      if s.openaiConnected then
        match renderOpenAI m with
        | some out => { s with clientMsgs := s.clientMsgs ++ [out] }
        | none => s
      else s
    | ExtEvent.openaiClosed =>
      if s.openaiConnected then endSession { s with openaiConnected := false } else s
    | ExtEvent.timeoutExpiry => endSession s

/-- A whole session: initialisation followed by the event trace. -/
def sessionRun (openaiConnectOk : Bool) (dgStartOk : Bool)
    (target_language mode : String) (trace : List ExtEvent) : SessionState :=
  trace.foldl sessionStep (sessionInit openaiConnectOk dgStartOk target_language mode)

/-- `on_message` never touches `finish_event` or `mode`. -/
theorem on_message_preserves (st : AssistantState) (r : DGResult) :
    (on_message st r).1.finish_event = st.finish_event ∧
      (on_message st r).1.mode = st.mode := by
  unfold on_message
  split
  · exact ⟨rfl, rfl⟩
  · dsimp only
    split
    · exact ⟨rfl, rfl⟩
    · split
      · split
        · exact ⟨rfl, rfl⟩
        · dsimp only
          split <;> exact ⟨rfl, rfl⟩
      · exact ⟨rfl, rfl⟩

/-- `on_utterance_end` never touches `finish_event` or `mode`. -/
theorem on_utterance_end_preserves (st : AssistantState) :
    (on_utterance_end st).1.finish_event = st.finish_event ∧
      (on_utterance_end st).1.mode = st.mode := by
  unfold on_utterance_end
  split
  · exact ⟨rfl, rfl⟩
  · split <;> exact ⟨rfl, rfl⟩

/-- Teardown does not touch the `Assistant` attributes. -/
theorem endSession_assistant (s : SessionState) :
    (endSession s).assistant = s.assistant := by
  unfold endSession
  split <;> rfl

/-- A session step never touches `finish_event` or `mode`. -/
theorem sessionStep_preserves (s : SessionState) (e : ExtEvent) :
    (sessionStep s e).assistant.finish_event = s.assistant.finish_event ∧
      (sessionStep s e).assistant.mode = s.assistant.mode := by
  unfold sessionStep
  split
  · exact ⟨rfl, rfl⟩
  · match e with
    | ExtEvent.clientAudio => exact ⟨rfl, rfl⟩
    | ExtEvent.clientDisconnect =>
      rw [endSession_assistant]
      exact ⟨rfl, rfl⟩
    | ExtEvent.dgTranscript r => exact on_message_preserves s.assistant r
    | ExtEvent.dgUtteranceEnd => exact on_utterance_end_preserves s.assistant
    | ExtEvent.consumeOne =>
      dsimp only
      split
      · exact ⟨rfl, rfl⟩
      · split
        · split <;> exact ⟨rfl, rfl⟩
        · exact ⟨rfl, rfl⟩
    | ExtEvent.openaiMsg m =>
      dsimp only
      split
      · split <;> exact ⟨rfl, rfl⟩
      · exact ⟨rfl, rfl⟩
    | ExtEvent.openaiClosed =>
      dsimp only
      split
      · rw [endSession_assistant]
        exact ⟨rfl, rfl⟩
      · exact ⟨rfl, rfl⟩
    | ExtEvent.timeoutExpiry =>
      rw [endSession_assistant]
      exact ⟨rfl, rfl⟩

/-- Folding session steps never touches `finish_event` or `mode`. -/
theorem sessionFold_preserves (trace : List ExtEvent) (s : SessionState) :
    ((trace.foldl sessionStep s).assistant.finish_event = s.assistant.finish_event ∧
      (trace.foldl sessionStep s).assistant.mode = s.assistant.mode) := by
  induction trace generalizing s with
  | nil => exact ⟨rfl, rfl⟩
  | cons e tr ih =>
    rw [List.foldl_cons]
    have h1 := ih (sessionStep s e)
    have h2 := sessionStep_preserves s e
    exact ⟨h1.1.trans h2.1, h1.2.trans h2.2⟩

/-- A sample final Deepgram transcript event: text "hello world", one word
starting at time 2. -/
def sampleFinal : DGResult :=
  { channel :=
      { alternatives := [{ transcript := "hello world", words := [{ start := 2 }] }] }
    is_final := true }

/-- C1: the claim says the termination latch (`finish_event`) is set on
client disconnect, on any loop's unrecoverable error, and on timeout expiry.
The code never calls `finish_event.set()` on any path: over every event
trace — disconnects, provider failures, timeouts included — the latch stays
`false`, while the session is instead torn down by exception propagation and
task-group cancellation.  In particular a client disconnect ends the session
with the latch still unset. -/
theorem c1_finish_event_never_set (openaiConnectOk dgStartOk : Bool)
    (tl mode : String) (trace : List ExtEvent) :
    (sessionRun openaiConnectOk dgStartOk tl mode trace).assistant.finish_event = false ∧
      (sessionRun true true "en" "speed" [ExtEvent.clientDisconnect]).assistant.finish_event
        = false ∧
      (sessionRun true true "en" "speed" [ExtEvent.clientDisconnect]).phase = Phase.ended := by
  refine ⟨?_, by decide, by decide⟩
  have h := sessionFold_preserves trace (sessionInit openaiConnectOk dgStartOk tl mode)
  have hinit : (sessionInit openaiConnectOk dgStartOk tl mode).assistant.finish_event = false := by
    unfold sessionInit
    split
    · rfl
    · rw [endSession_assistant]
      rfl
  exact h.1.trans hinit

/-- C2: the claim says that in accuracy mode final fragments are never
individually enqueued and exactly one concatenated `transcript_final` is
enqueued at utterance-end, with the buffer emptied and the baseline
timestamp reset.  Evaluating the code on the failing input — an
accuracy-mode session receiving the final fragment "hello world" and then an
utterance-end — shows the opposite: the fragment is enqueued individually
the moment it arrives (the accuracy branch of `on_message` is commented
out), and the utterance-end handler raises `AttributeError` on `self.mode`
(never stored by `__init__`), so no concatenated event is enqueued, the
buffer still holds the fragment and `stime` keeps its value 2. -/
theorem c2_accuracy_mode_broken :
    (on_message (Assistant.init "en" "accuracy") sampleFinal).2 = none ∧
      (on_message (Assistant.init "en" "accuracy") sampleFinal).1.transcript_queue =
        [{ type := "transcript_final", content := "hello world", time := some 2 }] ∧
      on_utterance_end (on_message (Assistant.init "en" "accuracy") sampleFinal).1 =
        ((on_message (Assistant.init "en" "accuracy") sampleFinal).1,
          some PyError.attributeError) ∧
      (on_message (Assistant.init "en" "accuracy") sampleFinal).1.transcript_parts =
        ["hello world"] ∧
      (on_message (Assistant.init "en" "accuracy") sampleFinal).1.stime = 2 := by
  decide

/-- C10: `Assistant.__init__` never stores the `mode` argument, so two
instances built with modes "speed" and "accuracy" (indeed any two modes) are
identical, the `mode` attribute is absent (`none`), it stays absent through
every session trace, and every invocation of the utterance-end handler on
such a state raises `AttributeError` while leaving the state (in particular
the queue) untouched instead of flushing. -/
theorem c10_mode_never_stored :
    (∀ tl mode, (Assistant.init tl mode).mode = none) ∧
      (∀ tl m1 m2, Assistant.init tl m1 = Assistant.init tl m2) ∧
      (∀ st : AssistantState, st.mode = none →
        on_utterance_end st = (st, some PyError.attributeError)) ∧
      (∀ openaiConnectOk dgStartOk tl mode trace,
        (sessionRun openaiConnectOk dgStartOk tl mode trace).assistant.mode = none) := by
  refine ⟨fun _ _ => rfl, fun _ _ _ => rfl, ?_, ?_⟩
  · intro st hmode
    unfold on_utterance_end
    rw [hmode]
  · intro openaiConnectOk dgStartOk tl mode trace
    have h := sessionFold_preserves trace (sessionInit openaiConnectOk dgStartOk tl mode)
    have hinit : (sessionInit openaiConnectOk dgStartOk tl mode).assistant.mode = none := by
      unfold sessionInit
      split
      · rfl
      · rw [endSession_assistant]
        rfl
    exact h.2.trans hinit

/-- Witness for C10: the third part applied to a freshly constructed
accuracy-mode assistant. -/
theorem c10_witness :
    on_utterance_end (Assistant.init "en" "accuracy") =
      (Assistant.init "en" "accuracy", some PyError.attributeError) :=
  c10_mode_never_stored.2.2.1 (Assistant.init "en" "accuracy") rfl

/-- C3: for every transcript fragment delivered to `on_message`: empty text
enqueues nothing (and changes nothing); a final fragment is immediately
enqueued as a `transcript_final` whose `time` is the start time of the
fragment's first word — which is its earliest word start time whenever the
provider lists words in non-decreasing start order; a non-final fragment is
enqueued as a `transcript_interim`. -/
theorem c3_fragment_policy (st : AssistantState) (r : DGResult) (alt : DGAlternative)
    (halt : r.channel.alternatives.head? = some alt) :
    (alt.transcript.length = 0 → on_message st r = (st, none)) ∧
      (∀ w ws, alt.transcript.length ≠ 0 → r.is_final = true → alt.words = w :: ws →
        (on_message st r).1.transcript_queue =
          st.transcript_queue ++
            [{ type := "transcript_final", content := alt.transcript, time := some w.start }] ∧
        (on_message st r).2 = none ∧
        (List.Pairwise (fun a b : Word => a.start ≤ b.start) alt.words →
          ∀ u, u ∈ alt.words → w.start ≤ u.start)) ∧
      (alt.transcript.length ≠ 0 → r.is_final = false →
        on_message st r =
          ({ st with transcript_queue := st.transcript_queue ++
              [{ type := "transcript_interim", content := alt.transcript, time := some 0 }] },
           none)) := by
  obtain ⟨⟨alts⟩, fin⟩ := r
  match alts, halt with
  | a :: rest, halt =>
    rw [List.head?_cons, Option.some_inj] at halt
    subst halt
    refine ⟨?_, ?_, ?_⟩
    · intro hlen
      unfold on_message
      simp only [List.head?_cons]
      rw [if_pos hlen]
    · intro w ws hlen hfin hwords
      subst hfin
      refine ⟨?_, ?_, ?_⟩
      · unfold on_message
        simp only [List.head?_cons, hwords]
        rw [if_neg hlen, if_pos (by trivial)]
        split <;> rfl
      · unfold on_message
        simp only [List.head?_cons, hwords]
        rw [if_neg hlen, if_pos (by trivial)]
      · intro hpair u hu
        rw [hwords] at hpair hu
        rcases List.pairwise_cons.mp hpair with ⟨hw, _⟩
        rcases List.mem_cons.mp hu with h | h
        · rw [h]
        · exact hw u h
    · intro hlen hnfin
      subst hnfin
      unfold on_message
      simp only [List.head?_cons]
      rw [if_neg hlen, if_neg (by simp)]

/-- Witness for C3: the final-fragment branch evaluated on the sample final
transcript "hello world" with word start time 2. -/
theorem c3_witness :
    (on_message (Assistant.init "en" "speed") sampleFinal).1.transcript_queue =
      [{ type := "transcript_final", content := "hello world", time := some 2 }] ∧
      (on_message (Assistant.init "en" "speed") sampleFinal).2 = none := by
  have h := (c3_fragment_policy (Assistant.init "en" "speed") sampleFinal
      { transcript := "hello world", words := [{ start := 2 }] } rfl).2.1
      { start := 2 } [] (by decide) rfl rfl
  exact ⟨by rw [h.1]; rfl, h.2.1⟩

/-- Folding queue operations from any state: the consumer's observation
sequence followed by what is still buffered is exactly the prior content
followed by the pushes in push order. -/
theorem qFold_order (ops : List QOp) (s : QueueState) :
    (ops.foldl qStep s).popped ++ (ops.foldl qStep s).buf =
      s.popped ++ (s.buf ++ pushesOf ops) := by
  induction ops generalizing s with
  | nil => simp [pushesOf]
  | cons op rest ih =>
    rw [List.foldl_cons]
    match op with
    | QOp.push m =>
      rw [ih]
      simp [qStep, pushesOf]
    | QOp.pop =>
      rw [ih]
      rcases h : s.buf with _ | ⟨m, t⟩
      · simp [qStep, h, pushesOf]
      · simp [qStep, h, pushesOf]

/-- C7: the transcript queue is strict FIFO — for every interleaving of
producer pushes and consumer pops, the sequence of messages the consumer has
observed, extended by what is still buffered, equals the push sequence in
push order; in particular the consumer dequeues events in exactly the order
they were enqueued, with no reordering and no priority. -/
theorem c7_queue_fifo (ops : List QOp) :
    (qRun ops).popped ++ (qRun ops).buf = pushesOf ops := by
  unfold qRun
  rw [qFold_order]
  rfl

/-- A translation request appears in a `manage_conversation` trace exactly
for the dequeued `transcript_final` messages whose client relay succeeded. -/
theorem translate_mem (sendOk : QueueMsg → Bool) (c : String) (msgs : List QueueMsg) :
    ConvAction.translate c ∈ manage_run sendOk msgs ↔
      ∃ m, m ∈ msgs ∧ sendOk m = true ∧ m.type = "transcript_final" ∧ m.content = c := by
  induction msgs with
  | nil => simp [manage_run]
  | cons m rest ih =>
    simp only [manage_run, manage_step, List.mem_append, ih]
    split_ifs with hok hfin <;> aesop

/-- A successful relay appears in a `manage_conversation` trace exactly for
the dequeued messages whose send succeeded. -/
theorem relay_mem (sendOk : QueueMsg → Bool) (m' : QueueMsg) (msgs : List QueueMsg) :
    ConvAction.relay m' ∈ manage_run sendOk msgs ↔ m' ∈ msgs ∧ sendOk m' = true := by
  induction msgs with
  | nil => simp [manage_run]
  | cons m rest ih =>
    simp only [manage_run, manage_step, List.mem_append, ih]
    split_ifs with hok hfin <;> aesop

/-- A failed relay appears in a `manage_conversation` trace exactly for the
dequeued messages whose send failed. -/
theorem relayError_mem (sendOk : QueueMsg → Bool) (m' : QueueMsg) (msgs : List QueueMsg) :
    ConvAction.relayError m' ∈ manage_run sendOk msgs ↔ m' ∈ msgs ∧ sendOk m' = false := by
  induction msgs with
  | nil => simp [manage_run]
  | cons m rest ih =>
    simp only [manage_run, manage_step, List.mem_append, ih]
    split_ifs with hok hfin <;> aesop

/-- A queued final transcript whose client relay will fail. -/
def boomMsg : QueueMsg := { type := "transcript_final", content := "boom", time := some 1 }

/-- A queued final transcript arriving after the failing one. -/
def nextMsg : QueueMsg := { type := "transcript_final", content := "next", time := some 2 }

/-- A client whose `send_json` raises exactly on the message "boom". -/
def sendOkBoom (m : QueueMsg) : Bool := m.content != "boom"

/-- Counterexample to C5: the claim says that when relaying a dequeued event
fails, the `manage_conversation` loop *ends* with no further processing.  In
the code the `except Exception` clause swallows the failure and the `while`
loop continues: after the relay of "boom" fails, the loop still dequeues,
relays and translates the next message — so the loop does not end. -/
theorem c5_counterexample :
    sendOkBoom boomMsg = false ∧
      manage_run sendOkBoom [boomMsg, nextMsg] =
        [ConvAction.relayError boomMsg, ConvAction.relay nextMsg,
          ConvAction.translate "next"] ∧
      ConvAction.relay nextMsg ∈ manage_run sendOkBoom [boomMsg, nextMsg] := by
  decide

/-- C5 as amended: when relaying a dequeued transcript event to the client
fails, that event receives no further processing — every translation request
in the trace comes from a message whose relay succeeded, so none is issued
for the failed event and there is no retry — but the loop does not end: it
continues with subsequent events, still relaying every later deliverable
message (and still recording a failed attempt for every undeliverable one). -/
theorem c5_amended (sendOk : QueueMsg → Bool) (msgs : List QueueMsg) :
    (∀ c, ConvAction.translate c ∈ manage_run sendOk msgs →
        ∃ m, m ∈ msgs ∧ sendOk m = true ∧ m.type = "transcript_final" ∧ m.content = c) ∧
      (∀ m, m ∈ msgs → sendOk m = true → ConvAction.relay m ∈ manage_run sendOk msgs) ∧
      (∀ m, m ∈ msgs → sendOk m = false →
        ConvAction.relayError m ∈ manage_run sendOk msgs) :=
  ⟨fun c hc => (translate_mem sendOk c msgs).mp hc,
    fun m hm hok => (relay_mem sendOk m msgs).mpr ⟨hm, hok⟩,
    fun m hm hbad => (relayError_mem sendOk m msgs).mpr ⟨hm, hbad⟩⟩

/-- Witness for C5's amended statement: after the failed relay of "boom",
the later message "next" is still relayed. -/
theorem c5_witness :
    ConvAction.relay nextMsg ∈ manage_run sendOkBoom [boomMsg, nextMsg] :=
  (c5_amended sendOkBoom [boomMsg, nextMsg]).2.1 nextMsg (by decide) (by decide)

/-- `relaysOf` distributes over trace concatenation. -/
theorem relaysOf_append (a b : List ConvAction) :
    relaysOf (a ++ b) = relaysOf a ++ relaysOf b := by
  induction a with
  | nil => rfl
  | cons x t ih =>
    cases x <;> simp [relaysOf, ih]

/-- With a healthy client every dequeued message is relayed, verbatim and in
dequeue order. -/
theorem relaysOf_manage_run (sendOk : QueueMsg → Bool) (msgs : List QueueMsg)
    (hall : ∀ m, m ∈ msgs → sendOk m = true) :
    relaysOf (manage_run sendOk msgs) = msgs := by
  induction msgs with
  | nil => rfl
  | cons m rest ih =>
    have hok : sendOk m = true := hall m (List.mem_cons_self m rest)
    rw [manage_run, relaysOf_append, ih (fun m' hm' => hall m' (List.mem_cons_of_mem m hm'))]
    unfold manage_step
    rw [if_pos hok]
    by_cases hfin : m.type = "transcript_final"
    · rw [if_pos hfin]
      rfl
    · rw [if_neg hfin]
      rfl

/-- In a healthy-client `manage_conversation` trace, every translation
request is immediately preceded by the successful client relay of the final
transcript it was built from. -/
theorem manage_run_translate_after_relay (sendOk : QueueMsg → Bool)
    (msgs : List QueueMsg) (hall : ∀ m, m ∈ msgs → sendOk m = true) :
    ∀ i c, (manage_run sendOk msgs)[i]? = some (ConvAction.translate c) →
      ∃ m, 0 < i ∧ (manage_run sendOk msgs)[i - 1]? = some (ConvAction.relay m) ∧
        m.type = "transcript_final" ∧ m.content = c := by
  induction msgs with
  | nil => intro i c h; simp [manage_run] at h
  | cons m rest ih =>
    have hok : sendOk m = true := hall m (List.mem_cons_self m rest)
    have ih' := ih (fun m' hm' => hall m' (List.mem_cons_of_mem m hm'))
    intro i c h
    rw [manage_run] at h ⊢
    unfold manage_step at h ⊢
    rw [if_pos hok] at h ⊢
    by_cases hfin : m.type = "transcript_final"
    · rw [if_pos hfin] at h ⊢
      simp only [List.cons_append, List.singleton_append] at h ⊢
      match i, h with
      | 0, h => simp at h
      | 1, h =>
        simp only [List.getElem?_cons_succ, List.getElem?_cons_zero, Option.some_inj] at h
        refine ⟨m, Nat.one_pos, ?_, hfin, ?_⟩
        · rfl
        · cases h with
          | refl => rfl
      | (j + 2), h =>
        simp only [List.getElem?_cons_succ] at h
        obtain ⟨m', hpos, hidx, hf, hc⟩ := ih' j c h
        obtain ⟨k, rfl⟩ : ∃ k, j = k + 1 := ⟨j - 1, (Nat.succ_pred_eq_of_pos hpos).symm⟩
        refine ⟨m', by omega, ?_, hf, hc⟩
        simp only [show k + 2 + 1 - 1 = k + 1 + 1 by omega, List.getElem?_cons_succ]
        simpa using hidx
    · rw [if_neg hfin] at h ⊢
      simp only [List.cons_append, List.nil_append] at h ⊢
      match i, h with
      | 0, h => simp at h
      | (j + 1), h =>
        simp only [List.getElem?_cons_succ] at h
        obtain ⟨m', hpos, hidx, hf, hc⟩ := ih' j c h
        obtain ⟨k, rfl⟩ : ∃ k, j = k + 1 := ⟨j - 1, (Nat.succ_pred_eq_of_pos hpos).symm⟩
        refine ⟨m', by omega, ?_, hf, hc⟩
        simp only [show k + 1 + 1 - 1 = k + 1 by omega, List.getElem?_cons_succ]
        simpa using hidx

/-- C8: with a healthy client, every dequeued transcript event is relayed to
the client verbatim and in dequeue order, and every translation request in
the trace is issued strictly after — in fact immediately after — the client
relay of the final transcript it corresponds to, so a final event's relay
happens-before its translation submission. -/
theorem c8_relay_before_translate (sendOk : QueueMsg → Bool) (msgs : List QueueMsg)
    (hall : ∀ m, m ∈ msgs → sendOk m = true) :
    relaysOf (manage_run sendOk msgs) = msgs ∧
      ∀ i c, (manage_run sendOk msgs)[i]? = some (ConvAction.translate c) →
        ∃ m, 0 < i ∧ (manage_run sendOk msgs)[i - 1]? = some (ConvAction.relay m) ∧
          m.type = "transcript_final" ∧ m.content = c :=
  ⟨relaysOf_manage_run sendOk msgs hall,
    manage_run_translate_after_relay sendOk msgs hall⟩

/-- A client whose sends always succeed. -/
def sendOkAll (m : QueueMsg) : Bool := true

/-- Witness for C8: a healthy client receives both queued finals verbatim in
order. -/
theorem c8_witness :
    relaysOf (manage_run sendOkAll [boomMsg, nextMsg]) = [boomMsg, nextMsg] :=
  (c8_relay_before_translate sendOkAll [boomMsg, nextMsg] (fun m hm => rfl)).1

/-- Classifier for client messages originating from the translation relay
loop (`assistant` deltas and `assistant_done` completions). -/
def isAssistantOut : ClientMsg → Bool
  | ClientMsg.transcript _ => false
  | ClientMsg.assistant _ => true
  | ClientMsg.assistantDone => true

/-- Teardown touches neither the OpenAI connection flag, nor the requests
sent to OpenAI, nor the messages already sent to the client. -/
theorem endSession_io (s : SessionState) :
    (endSession s).openaiConnected = s.openaiConnected ∧
      (endSession s).openaiRequests = s.openaiRequests ∧
      (endSession s).clientMsgs = s.clientMsgs := by
  unfold endSession
  split <;> exact ⟨rfl, rfl, rfl⟩

/-- When the OpenAI connection is absent, no step establishes it, no step
sends it a request, and no step sends the client a translation message. -/
theorem sessionStep_no_generation (s : SessionState) (e : ExtEvent)
    (hconn : s.openaiConnected = false) :
    (sessionStep s e).openaiConnected = false ∧
      (sessionStep s e).openaiRequests = s.openaiRequests ∧
      (sessionStep s e).clientMsgs.filter isAssistantOut =
        s.clientMsgs.filter isAssistantOut := by
  unfold sessionStep
  split
  · exact ⟨hconn, rfl, rfl⟩
  · match e with
    | ExtEvent.clientAudio => exact ⟨hconn, rfl, rfl⟩
    | ExtEvent.clientDisconnect =>
      have h := endSession_io { s with clientConnected := false }
      exact ⟨h.1.trans hconn, h.2.1, by rw [h.2.2]⟩
    | ExtEvent.dgTranscript r => exact ⟨hconn, rfl, rfl⟩
    | ExtEvent.dgUtteranceEnd => exact ⟨hconn, rfl, rfl⟩
    | ExtEvent.consumeOne =>
      dsimp only
      split
      · exact ⟨hconn, rfl, rfl⟩
      · split
        · rw [if_neg (by simp [hconn])]
          refine ⟨hconn, rfl, ?_⟩
          simp [List.filter_append, isAssistantOut]
        · exact ⟨hconn, rfl, rfl⟩
    | ExtEvent.openaiMsg m =>
      dsimp only
      rw [if_neg (by simp [hconn])]
      exact ⟨hconn, rfl, rfl⟩
    | ExtEvent.openaiClosed =>
      dsimp only
      rw [if_neg (by simp [hconn])]
      exact ⟨hconn, rfl, rfl⟩
    | ExtEvent.timeoutExpiry =>
      have h := endSession_io s
      exact ⟨h.1.trans hconn, h.2.1, by rw [h.2.2]⟩

/-- Fold version of `sessionStep_no_generation` over a whole trace. -/
theorem sessionFold_no_generation (trace : List ExtEvent) (s : SessionState)
    (hconn : s.openaiConnected = false) :
    (trace.foldl sessionStep s).openaiConnected = false ∧
      (trace.foldl sessionStep s).openaiRequests = s.openaiRequests ∧
      (trace.foldl sessionStep s).clientMsgs.filter isAssistantOut =
        s.clientMsgs.filter isAssistantOut := by
  induction trace generalizing s with
  | nil => exact ⟨hconn, rfl, rfl⟩
  | cons e tr ih =>
    rw [List.foldl_cons]
    have hstep := sessionStep_no_generation s e hconn
    have h := ih (sessionStep s e) hstep.1
    exact ⟨h.1, h.2.1.trans hstep.2.1, h.2.2.trans hstep.2.2⟩

/-- Counterexample to C4: the claim says that when the translation-provider
connection cannot be established, the controller does not start the loops
and closes the client with a setup-failure code before streaming.  In the
code `connect_to_openai` swallows the failure, `run` starts the task group
anyway, the session streams a transcript to the client with no generation
channel, and when it eventually ends the client is closed with the default
code 1000, not a setup-failure code. -/
theorem c4_counterexample :
    (sessionInit false true "en" "speed").phase = Phase.streaming ∧
      (sessionRun false true "en" "speed"
          [ExtEvent.clientAudio, ExtEvent.dgTranscript sampleFinal,
            ExtEvent.consumeOne]).clientMsgs =
        [ClientMsg.transcript
          { type := "transcript_final", content := "hello world", time := some 2 }] ∧
      (sessionRun false true "en" "speed"
          [ExtEvent.clientAudio, ExtEvent.dgTranscript sampleFinal,
            ExtEvent.consumeOne, ExtEvent.timeoutExpiry]).closeCode = some 1000 := by
  decide

/-- C4 as amended: a failed translation-provider connection is not fatal —
the controller still starts the loops and the session streams (it begins in
the streaming phase and proceeds normally); the generation channel simply
never exists: over every event trace the connection stays absent, no
translation request is ever sent, and the client never receives an
`assistant`/`assistant_done` message. -/
theorem c4_no_generation_channel (dgStartOk : Bool) (tl mode : String)
    (trace : List ExtEvent) :
    (sessionInit false true tl mode).phase = Phase.streaming ∧
      (sessionRun false dgStartOk tl mode trace).openaiConnected = false ∧
      (sessionRun false dgStartOk tl mode trace).openaiRequests = [] ∧
      (sessionRun false dgStartOk tl mode trace).clientMsgs.filter isAssistantOut = [] := by
  have hconn : (sessionInit false dgStartOk tl mode).openaiConnected = false := by
    unfold sessionInit
    split
    · rfl
    · exact (endSession_io _).1
  have h := sessionFold_no_generation trace (sessionInit false dgStartOk tl mode) hconn
  have hreq : (sessionInit false dgStartOk tl mode).openaiRequests = [] := by
    unfold sessionInit
    split
    · rfl
    · exact (endSession_io _).2.1
  have hmsgs : (sessionInit false dgStartOk tl mode).clientMsgs = [] := by
    unfold sessionInit
    split
    · rfl
    · exact (endSession_io _).2.2
  refine ⟨rfl, h.1, h.2.1.trans hreq, h.2.2.trans ?_⟩
  rw [hmsgs]
  rfl

/-- Teardown bookkeeping invariant: the Deepgram-start flag is stable, the
OpenAI connection is never closed, and while streaming no close has
happened, while after the end the Deepgram finish ran exactly once (iff the
connection had started) and the client close at most once. -/
def TeardownInv (dgStartOk : Bool) (s : SessionState) : Prop :=
  s.dgStarted = dgStartOk ∧
    s.openaiCloseCount = 0 ∧
    (s.phase = Phase.streaming →
      s.dgFinishCount = 0 ∧ s.clientCloseCount = 0 ∧ s.clientConnected = true) ∧
    (s.phase = Phase.ended →
      s.dgFinishCount = (if dgStartOk then 1 else 0) ∧ s.clientCloseCount ≤ 1)

/-- The invariant transports along equality of the fields it mentions. -/
theorem TeardownInv_of_eq (dgStartOk : Bool) (s t : SessionState)
    (h1 : t.dgStarted = s.dgStarted) (h2 : t.openaiCloseCount = s.openaiCloseCount)
    (h3 : t.dgFinishCount = s.dgFinishCount) (h4 : t.clientCloseCount = s.clientCloseCount)
    (h5 : t.phase = s.phase) (h6 : t.clientConnected = s.clientConnected)
    (h : TeardownInv dgStartOk s) : TeardownInv dgStartOk t := by
  obtain ⟨hdg, hoc, hstream, hended⟩ := h
  refine ⟨h1.trans hdg, h2.trans hoc, ?_, ?_⟩
  · intro hp
    obtain ⟨a, b, c⟩ := hstream (h5.symm.trans hp)
    exact ⟨h3.trans a, h4.trans b, h6.trans c⟩
  · intro hp
    obtain ⟨a, b⟩ := hended (h5.symm.trans hp)
    exact ⟨h3.trans a, by rw [h4]; exact b⟩

/-- Teardown from a streaming state with clean counters establishes the
invariant's ended clause. -/
theorem endSession_teardown (dgStartOk : Bool) (s : SessionState)
    (hph : s.phase = Phase.streaming) (hdg : s.dgStarted = dgStartOk)
    (hoc : s.openaiCloseCount = 0) (hf0 : s.dgFinishCount = 0)
    (hc0 : s.clientCloseCount = 0) :
    TeardownInv dgStartOk (endSession s) := by
  unfold endSession
  rw [if_neg (by rw [hph]; exact fun h => Phase.noConfusion h)]
  refine ⟨hdg, hoc, ?_, ?_⟩
  · intro hcontra
    exact absurd hcontra (fun h => Phase.noConfusion h)
  · intro _
    refine ⟨?_, ?_⟩
    · dsimp only
      rw [hf0, hdg, Nat.zero_add]
    · dsimp only
      rw [hc0, Nat.zero_add]
      split <;> omega

/-- Every session step preserves the teardown invariant. -/
theorem sessionStep_teardown (dgStartOk : Bool) (s : SessionState) (e : ExtEvent)
    (h : TeardownInv dgStartOk s) : TeardownInv dgStartOk (sessionStep s e) := by
  obtain ⟨hdg, hoc, hstream, hended⟩ := h
  unfold sessionStep
  split
  · exact ⟨hdg, hoc, hstream, hended⟩
  case isFalse hph =>
    have hs : s.phase = Phase.streaming := by
      cases hp : s.phase
      · rfl
      · exact absurd hp hph
    obtain ⟨hf0, hc0, hconn⟩ := hstream hs
    match e with
    | ExtEvent.clientAudio =>
      exact TeardownInv_of_eq dgStartOk s _ rfl rfl rfl rfl rfl rfl
        ⟨hdg, hoc, hstream, hended⟩
    | ExtEvent.clientDisconnect =>
      exact endSession_teardown dgStartOk _ hs hdg hoc hf0 hc0
    | ExtEvent.dgTranscript r =>
      exact TeardownInv_of_eq dgStartOk s _ rfl rfl rfl rfl rfl rfl
        ⟨hdg, hoc, hstream, hended⟩
    | ExtEvent.dgUtteranceEnd =>
      exact TeardownInv_of_eq dgStartOk s _ rfl rfl rfl rfl rfl rfl
        ⟨hdg, hoc, hstream, hended⟩
    | ExtEvent.consumeOne =>
      dsimp only
      split
      · exact ⟨hdg, hoc, hstream, hended⟩
      · refine TeardownInv_of_eq dgStartOk s _ ?_ ?_ ?_ ?_ ?_ ?_
          ⟨hdg, hoc, hstream, hended⟩ <;> (repeat' split) <;> rfl
    | ExtEvent.openaiMsg m =>
      dsimp only
      refine TeardownInv_of_eq dgStartOk s _ ?_ ?_ ?_ ?_ ?_ ?_
        ⟨hdg, hoc, hstream, hended⟩ <;> (repeat' split) <;> rfl
    | ExtEvent.openaiClosed =>
      dsimp only
      split
      · exact endSession_teardown dgStartOk _ hs hdg hoc hf0 hc0
      · exact ⟨hdg, hoc, hstream, hended⟩
    | ExtEvent.timeoutExpiry =>
      exact endSession_teardown dgStartOk _ hs hdg hoc hf0 hc0

/-- Session start establishes the teardown invariant. -/
theorem sessionInit_teardown (openaiConnectOk dgStartOk : Bool) (tl mode : String) :
    TeardownInv dgStartOk (sessionInit openaiConnectOk dgStartOk tl mode) := by
  unfold sessionInit
  split
  · refine ⟨rfl, rfl, fun _ => ⟨rfl, rfl, rfl⟩, ?_⟩
    intro hcontra
    exact absurd hcontra (fun h => Phase.noConfusion h)
  · exact endSession_teardown dgStartOk _ rfl rfl rfl rfl rfl

/-- The teardown invariant holds after any event trace. -/
theorem sessionFold_teardown (dgStartOk : Bool) (trace : List ExtEvent)
    (s : SessionState) (h : TeardownInv dgStartOk s) :
    TeardownInv dgStartOk (trace.foldl sessionStep s) := by
  induction trace generalizing s with
  | nil => exact h
  | cons e tr ih =>
    rw [List.foldl_cons]
    exact ih _ (sessionStep_teardown dgStartOk s e h)

/-- Counterexample to C6: the claim says both provider connections are
closed during teardown.  On a timeout exit the session ends with the
Deepgram connection finished once and the client closed once, but the OpenAI
connection — still established at that moment — is never closed: no code
path calls `openai_ws.close()`. -/
theorem c6_counterexample :
    (sessionRun true true "en" "speed" [ExtEvent.timeoutExpiry]).phase = Phase.ended ∧
      (sessionRun true true "en" "speed" [ExtEvent.timeoutExpiry]).openaiConnected = true ∧
      (sessionRun true true "en" "speed" [ExtEvent.timeoutExpiry]).openaiCloseCount = 0 ∧
      (sessionRun true true "en" "speed" [ExtEvent.timeoutExpiry]).dgFinishCount = 1 ∧
      (sessionRun true true "en" "speed" [ExtEvent.timeoutExpiry]).clientCloseCount = 1 := by
  decide

/-- C6 as amended: on every exit path teardown runs at most once — the
speech-provider connection is finished at most once over the whole session,
and exactly once whenever the session has ended and that connection had
started; the client connection is closed at most once (and only when not
already disconnected); the generation-provider connection is never closed on
any path. -/
theorem c6_teardown_counts (openaiConnectOk dgStartOk : Bool) (tl mode : String)
    (trace : List ExtEvent) :
    (sessionRun openaiConnectOk dgStartOk tl mode trace).openaiCloseCount = 0 ∧
      (sessionRun openaiConnectOk dgStartOk tl mode trace).dgFinishCount ≤ 1 ∧
      (sessionRun openaiConnectOk dgStartOk tl mode trace).clientCloseCount ≤ 1 ∧
      ((sessionRun openaiConnectOk dgStartOk tl mode trace).phase = Phase.ended →
        dgStartOk = true →
        (sessionRun openaiConnectOk dgStartOk tl mode trace).dgFinishCount = 1) := by
  unfold sessionRun
  obtain ⟨hdg, hoc, hstream, hended⟩ :=
    sessionFold_teardown dgStartOk trace _ (sessionInit_teardown openaiConnectOk dgStartOk tl mode)
  refine ⟨hoc, ?_, ?_, ?_⟩
  · cases hp : (trace.foldl sessionStep (sessionInit openaiConnectOk dgStartOk tl mode)).phase
    · rw [(hstream hp).1]
      omega
    · rw [(hended hp).1]
      split <;> omega
  · cases hp : (trace.foldl sessionStep (sessionInit openaiConnectOk dgStartOk tl mode)).phase
    · rw [(hstream hp).2.1]
      omega
    · exact (hended hp).2
  · intro hE hT
    rw [(hended hE).1, hT]
    rfl

/-- Witness for C6's amended statement: after a timeout exit the Deepgram
connection was finished exactly once. -/
theorem c6_witness :
    (sessionRun true true "en" "speed" [ExtEvent.timeoutExpiry]).dgFinishCount = 1 :=
  (c6_teardown_counts true true "en" "speed" [ExtEvent.timeoutExpiry]).2.2.2 (by decide) rfl

/-- After the session has ended, every event is a no-op (all tasks are
cancelled). -/
theorem sessionStep_ended (s : SessionState) (e : ExtEvent)
    (h : s.phase = Phase.ended) : sessionStep s e = s := by
  unfold sessionStep
  rw [if_pos h]

/-- One OpenAI message, received while streaming with the connection up, is
relayed per `renderOpenAI` and changes neither the phase nor the
connection. -/
theorem sessionStep_openaiMsg (s : SessionState) (m : OpenAIMsg)
    (hp : s.phase = Phase.streaming) (hc : s.openaiConnected = true) :
    (sessionStep s (ExtEvent.openaiMsg m)).clientMsgs =
        s.clientMsgs ++ (renderOpenAI m).toList ∧
      (sessionStep s (ExtEvent.openaiMsg m)).phase = Phase.streaming ∧
      (sessionStep s (ExtEvent.openaiMsg m)).openaiConnected = true := by
  have hne : ¬ s.phase = Phase.ended := by
    rw [hp]
    exact fun h => Phase.noConfusion h
  cases m <;> simp [sessionStep, renderOpenAI, hne, hc, hp]

/-- A block of OpenAI messages is relayed to the client in receipt order. -/
theorem sessionFold_openaiMsgs (ms : List OpenAIMsg) (s : SessionState)
    (hp : s.phase = Phase.streaming) (hc : s.openaiConnected = true) :
    ((ms.map ExtEvent.openaiMsg).foldl sessionStep s).clientMsgs =
      s.clientMsgs ++ ms.filterMap renderOpenAI := by
  induction ms generalizing s with
  | nil => simp
  | cons m rest ih =>
    rw [List.map_cons, List.foldl_cons]
    obtain ⟨h1, h2, h3⟩ := sessionStep_openaiMsg s m hp hc
    rw [ih _ h2 h3, h1]
    cases hm : renderOpenAI m <;> simp [List.filterMap_cons, hm]

/-- C9: while the generation-provider connection is up, every
`response.text.delta` is relayed to the client as an `assistant` message and
every `response.text.done` as an `assistant_done` message, in receipt order;
when that connection closes (the `ConnectionClosed` re-raise in
`process_openai_responses`), the whole session ends — teardown runs (the
speech connection is finished, the client closed if still connected) and
every subsequent event is a no-op, i.e. all sibling loops are cancelled. -/
theorem c9_provider_failure (s : SessionState) (ms : List OpenAIMsg)
    (hp : s.phase = Phase.streaming) (hc : s.openaiConnected = true) :
    ((ms.map ExtEvent.openaiMsg).foldl sessionStep s).clientMsgs =
        s.clientMsgs ++ ms.filterMap renderOpenAI ∧
      (sessionStep s ExtEvent.openaiClosed).phase = Phase.ended ∧
      (sessionStep s ExtEvent.openaiClosed).dgFinishCount =
        s.dgFinishCount + (if s.dgStarted = true then 1 else 0) ∧
      (sessionStep s ExtEvent.openaiClosed).clientCloseCount =
        s.clientCloseCount + (if s.clientConnected = true then 1 else 0) ∧
      ∀ e, sessionStep (sessionStep s ExtEvent.openaiClosed) e =
        sessionStep s ExtEvent.openaiClosed := by
  have hne : ¬ s.phase = Phase.ended := by
    rw [hp]
    exact fun h => Phase.noConfusion h
  have hclosed : sessionStep s ExtEvent.openaiClosed =
      endSession { s with openaiConnected := false } := by
    simp [sessionStep, hne, hc]
  have hES : (endSession { s with openaiConnected := false }).phase = Phase.ended ∧
      (endSession { s with openaiConnected := false }).dgFinishCount =
        s.dgFinishCount + (if s.dgStarted = true then 1 else 0) ∧
      (endSession { s with openaiConnected := false }).clientCloseCount =
        s.clientCloseCount + (if s.clientConnected = true then 1 else 0) := by
    unfold endSession
    rw [if_neg hne]
    exact ⟨rfl, rfl, rfl⟩
  refine ⟨sessionFold_openaiMsgs ms s hp hc, ?_, ?_, ?_, ?_⟩
  · rw [hclosed]
    exact hES.1
  · rw [hclosed]
    exact hES.2.1
  · rw [hclosed]
    exact hES.2.2
  · intro e
    rw [hclosed]
    exact sessionStep_ended _ e hES.1

/-- Witness for C9: from a freshly started session a delta "Hola" and a
completion are relayed in order, and a connection close ends the session. -/
theorem c9_witness :
    (([OpenAIMsg.textDelta "Hola", OpenAIMsg.textDone].map
        ExtEvent.openaiMsg).foldl sessionStep
          (sessionInit true true "en" "speed")).clientMsgs =
        [ClientMsg.assistant "Hola", ClientMsg.assistantDone] ∧
      (sessionStep (sessionInit true true "en" "speed") ExtEvent.openaiClosed).phase =
        Phase.ended := by
  have h := c9_provider_failure (sessionInit true true "en" "speed")
    [OpenAIMsg.textDelta "Hola", OpenAIMsg.textDone] rfl rfl
  exact ⟨by rw [h.1]; rfl, h.2.1⟩
